import Mathlib

/-
Verification development for `github_analysis/get_data.py`.

The script harvests metadata for the most-starred repositories and writes it
to a CSV file.  We give a shallow embedding of its pure core:

  * `get_repository_regex`  — the positional regex extraction over the
    repository page markup (four numeric badges);
  * `get_repository_licence` — the license lookup over the JSON body of the
    license sub-resource;
  * `fill_repository`        — the per-repository enrichment and dict merge;
  * `repository_generator`   — the paged search traversal;
  * `main`                   — the CSV-producing pipeline.

Network fetches are replaced by an explicit environment (`Env`) mapping each
request to the response text the code would have received; everything else is
translated statement by statement from the Python source.  Python `dict`s are
modelled as insertion-ordered association lists (`PyDict`), matching Python's
dictionary semantics (insertion order preserved; re-assignment of an existing
key keeps its position).  Raised exceptions are modelled by `Option`/`Except`
failure values.
-/

/-- JSON values as produced by Python's `json.loads`.  Integer literals become
`num` (Python `int`); numeric literals with a fraction or exponent, and the
non-standard constants `NaN`/`Infinity`/`-Infinity` accepted by Python, become
`flt` carrying their literal text (Python would convert them to IEEE floats;
no claim inspects such a value, only its presence).  Objects are
insertion-ordered association lists, as Python dicts are. -/
inductive JsonVal where
  | null : JsonVal
  | bool : Bool → JsonVal
  | num : Int → JsonVal
  | flt : List Char → JsonVal
  | str : String → JsonVal
  | arr : List JsonVal → JsonVal
  | obj : List (String × JsonVal) → JsonVal

/-- A Python dict with string keys, in insertion order. -/
abbrev PyDict := List (String × JsonVal)

/-- Lookup of a key in a Python dict (`d[k]` / `k in d`). -/
def dictLookup (k : String) : PyDict → Option JsonVal
  | [] => none
  | (k2, v) :: rest => if k2 = k then some v else dictLookup k rest

/-- The keys of a dict, in insertion order. -/
def dictKeys (d : PyDict) : List String := d.map (fun kv => kv.1)

/-- Python `d[k] = v`: overwrite in place when the key is present, append
otherwise. -/
def dictSet (d : PyDict) (k : String) (v : JsonVal) : PyDict :=
  match d with
  | [] => [(k, v)]
  | (k2, w) :: rest => if k2 = k then (k2, v) :: rest else (k2, w) :: dictSet rest k v

/-- Python `{**a, **b}`: keys of `a` in order (values overridden by `b` where
shared), then the keys of `b` not in `a`, in `b`'s order. -/
def dictMerge (a b : PyDict) : PyDict :=
  (a.map (fun kv =>
    match dictLookup kv.1 b with
    | some w => (kv.1, w)
    | none => kv)) ++ b.filter (fun kv => (dictLookup kv.1 a).isNone)

/- ----------------------------------------------------------------------
HtmlStatsExtractor: `get_repository_regex`.

The Python source compiles (with DOTALL, so `.` also matches newlines)

  <li class="commits">.*?<span class="num text-emphasized">.*?(\d+).*?</span>
    (three more copies of the span group)

and takes `findall(site)[0]`.  Every gap in the pattern is a lazy `.*?`, the
groups are greedy `(\d+)`, and all literals are plain substrings, so the first
match is computed by pure left-to-right scanning: find the first occurrence of
the `<li ...>` literal, then for each group find the next span literal, the
next digit run after it, and the next `</span>` after the digits.  Lazy
quantifiers make each landmark the first occurrence at or after the current
position; backtracking (a later landmark choice) only moves the scan position
forward and every later step looks for a first occurrence at-or-after that
position, so if the minimal scan fails every alternative fails too — the scan
below is therefore exactly the first-match semantics of `findall`, and
`findall(site)[0]` raising `IndexError` on no match is the `none` case.
---------------------------------------------------------------------- -/

/-- Whether `pat` occurs at the head of `s`. -/
def leadsWith : List Char → List Char → Bool
  | [], _ => true
  | _ :: _, [] => false
  | p :: ps, c :: cs => p == c && leadsWith ps cs

/-- Drop everything up to and including the first occurrence of `pat`;
`none` when `pat` does not occur. -/
def dropUntilAfter (pat : List Char) : List Char → Option (List Char)
  | [] => if leadsWith pat [] then some [] else none
  | c :: rest =>
    if leadsWith pat (c :: rest) then some ((c :: rest).drop pat.length)
    else dropUntilAfter pat rest

/-- The literal opening the pattern. -/
def liLit : List Char := "<li class=\"commits\">".toList

/-- The span literal preceding each captured number. -/
def spanLit : List Char := "<span class=\"num text-emphasized\">".toList

/-- The closing literal after each captured number. -/
def closeLit : List Char := "</span>".toList

/-- One capture group of the pattern: the next span literal, then the first
digit run after it (the `(\d+)` capture), then the next `</span>`.  Returns
the captured digits and the rest of the input after the closing literal. -/
def scanGroup (s : List Char) : Option (List Char × List Char) := do
  let s1 ← dropUntilAfter spanLit s
  let s2 := s1.dropWhile (fun c => !c.isDigit)
  let ds := s2.takeWhile Char.isDigit
  let s3 := s2.dropWhile Char.isDigit
  if ds = [] then none
  else do
    let s4 ← dropUntilAfter closeLit s3
    pure (ds, s4)

/-- The first match of the compiled pattern `regex_cbrcl`: the four captured
digit strings, in page position order. -/
def regex_cbrcl_match (site : List Char) :
    Option (List Char × List Char × List Char × List Char) := do
  let s0 ← dropUntilAfter liLit site
  let g1 ← scanGroup s0
  let g2 ← scanGroup g1.2
  let g3 ← scanGroup g2.2
  let g4 ← scanGroup g3.2
  pure (g1.1, g2.1, g3.1, g4.1)

/-- Python `int` of a digit character. -/
def digitVal (c : Char) : Nat := c.toNat - 48

/-- Python `int` of a (non-empty, all-digit) captured string. -/
def readNat (ds : List Char) : Nat := ds.foldl (fun a c => 10 * a + digitVal c) 0

/-- `get_repository_regex`, with the fetched page text as input.  Mirrors

    cbrc = regex_cbrcl.findall(site)[0]
    return \x7b"commit_count": int(cbrc[0]), "branch_count": int(cbrc[1]),
            "release_count": int(cbrc[3]), "contributor_count": int(cbrc[2])\x7d

`none` models the `IndexError` raised when `findall` returns no match. -/
def get_repository_regex (site : List Char) : Option PyDict :=
  match regex_cbrcl_match site with
  | none => none
  | some (g1, g2, g3, g4) =>
      some [("commit_count", JsonVal.num (Int.ofNat (readNat g1))),
            ("branch_count", JsonVal.num (Int.ofNat (readNat g2))),
            ("release_count", JsonVal.num (Int.ofNat (readNat g4))),
            ("contributor_count", JsonVal.num (Int.ofNat (readNat g3)))]

/-- A badge as matched by one capture group: the span literal, the digits, the
closing literal. -/
def badge (g : List Char) : List Char := spanLit ++ g ++ closeLit

/-- A page fragment holding the opening literal followed by four consecutive
numeric badges. -/
def fourBadges (g1 g2 g3 g4 : List Char) : List Char :=
  liLit ++ badge g1 ++ badge g2 ++ badge g3 ++ badge g4

/- ----------------------------------------------------------------------
Python `json.loads`, as used by `get_repository_licence` and
`repository_generator`.  A recursive-descent parser for the JSON grammar
(plus the non-standard constants Python accepts by default), fuelled by the
input length; `none` models a raised `json.JSONDecodeError`.
---------------------------------------------------------------------- -/

/-- JSON insignificant whitespace. -/
def jsonWs (c : Char) : Bool :=
  c == ' ' || c == '\t' || c == '\n' || c == '\r'

/-- Skip insignificant whitespace. -/
def skipWs (s : List Char) : List Char := s.dropWhile jsonWs

/-- Value of one hex digit. -/
def hexVal (c : Char) : Option Nat :=
  if c.isDigit then some (c.toNat - 48)
  else if 'a' ≤ c ∧ c ≤ 'f' then some (c.toNat - 87)
  else if 'A' ≤ c ∧ c ≤ 'F' then some (c.toNat - 55)
  else none

/-- Value of a four-hex-digit escape. -/
def hex4 (a b c d : Char) : Option Nat := do
  let va ← hexVal a
  let vb ← hexVal b
  let vc ← hexVal c
  let vd ← hexVal d
  pure (((va * 16 + vb) * 16 + vc) * 16 + vd)

/-- Parse the body of a JSON string (the opening quote already consumed),
accumulating the decoded characters in reverse.  Escapes follow RFC 8259; a
`\uXXXX` high surrogate must be followed by a low surrogate and the pair is
combined (Python tolerates lone surrogates inside its `str` type, but such a
string is not representable as Lean `Char`s; no input in this development
contains one).  Raw control characters are rejected, as Python's default
strict mode does. -/
def parseStringAux : Nat → List Char → List Char → Option (String × List Char)
  | 0, _, _ => none
  | Nat.succ f, s, acc =>
    match s with
    | [] => none
    | '"' :: rest => some (String.mk acc.reverse, rest)
    | '\\' :: 'u' :: a :: b :: c :: d :: rest =>
      (match hex4 a b c d with
       | none => none
       | some code =>
         if 0xD800 ≤ code ∧ code < 0xDC00 then
           match rest with
           | '\\' :: 'u' :: a2 :: b2 :: c2 :: d2 :: rest2 =>
             (match hex4 a2 b2 c2 d2 with
              | none => none
              | some lo =>
                if 0xDC00 ≤ lo ∧ lo < 0xE000 then
                  parseStringAux f rest2
                    (Char.ofNat (0x10000 + (code - 0xD800) * 0x400 + (lo - 0xDC00)) :: acc)
                else none)
           | _ => none
         else if 0xDC00 ≤ code ∧ code < 0xE000 then none
         else parseStringAux f rest (Char.ofNat code :: acc))
    | '\\' :: e :: rest =>
      if e = '"' then parseStringAux f rest ('"' :: acc)
      else if e = '\\' then parseStringAux f rest ('\\' :: acc)
      else if e = '/' then parseStringAux f rest ('/' :: acc)
      else if e = 'b' then parseStringAux f rest ('\x08' :: acc)
      else if e = 'f' then parseStringAux f rest ('\x0c' :: acc)
      else if e = 'n' then parseStringAux f rest ('\n' :: acc)
      else if e = 'r' then parseStringAux f rest ('\r' :: acc)
      else if e = 't' then parseStringAux f rest ('\t' :: acc)
      else none
    | c :: rest =>
      if c.toNat < 32 then none else parseStringAux f rest (c :: acc)

/-- Parse a JSON number starting at `s` (first character a `-` or a digit).
Integer literals yield `num`; literals with a fraction or exponent yield
`flt` with their raw text. -/
def parseNum (s : List Char) : Option (JsonVal × List Char) :=
  let (neg, s1) := match s with
    | '-' :: r => (true, r)
    | _ => (false, s)
  match s1 with
  | [] => none
  | c :: r =>
    if ¬ c.isDigit then none
    else
      let intDigits := if c = '0' then [c] else (c :: r).takeWhile Char.isDigit
      let s2 := if c = '0' then r else (c :: r).dropWhile Char.isDigit
      let (fracDigits, s3) := match s2 with
        | '.' :: r2 => (r2.takeWhile Char.isDigit, r2.dropWhile Char.isDigit)
        | _ => ([], s2)
      let hasFrac := match s2 with
        | '.' :: _ => true
        | _ => false
      if hasFrac ∧ fracDigits = [] then none
      else
        let (hasExp, expDigits, s4) := match s3 with
          | 'e' :: '+' :: r3 => (true, r3.takeWhile Char.isDigit, r3.dropWhile Char.isDigit)
          | 'e' :: '-' :: r3 => (true, r3.takeWhile Char.isDigit, r3.dropWhile Char.isDigit)
          | 'e' :: r3 => (true, r3.takeWhile Char.isDigit, r3.dropWhile Char.isDigit)
          | 'E' :: '+' :: r3 => (true, r3.takeWhile Char.isDigit, r3.dropWhile Char.isDigit)
          | 'E' :: '-' :: r3 => (true, r3.takeWhile Char.isDigit, r3.dropWhile Char.isDigit)
          | 'E' :: r3 => (true, r3.takeWhile Char.isDigit, r3.dropWhile Char.isDigit)
          | _ => (false, [], s3)
        if hasExp ∧ expDigits = [] then none
        else
          let consumedLen := s.length - s4.length
          if ¬ hasFrac ∧ ¬ hasExp then
            let v : Int := Int.ofNat (readNat intDigits)
            some (JsonVal.num (if neg then -v else v), s4)
          else
            some (JsonVal.flt (s.take consumedLen), s4)

mutual

/-- Parse one JSON value, leading whitespace allowed. -/
def parseVal : Nat → List Char → Option (JsonVal × List Char)
  | 0, _ => none
  | Nat.succ f, s =>
    match skipWs s with
    | [] => none
    | c :: rest =>
      if c = '\x7b' then
        match skipWs rest with
        | '\x7d' :: rest2 => some (JsonVal.obj [], rest2)
        | _ => parseMembers f rest []
      else if c = '[' then
        match skipWs rest with
        | ']' :: rest2 => some (JsonVal.arr [], rest2)
        | _ => parseItems f rest []
      else if c = '"' then
        match parseStringAux (rest.length + 1) rest [] with
        | none => none
        | some (str, rest2) => some (JsonVal.str str, rest2)
      else if leadsWith "true".toList (c :: rest) then
        some (JsonVal.bool true, (c :: rest).drop 4)
      else if leadsWith "false".toList (c :: rest) then
        some (JsonVal.bool false, (c :: rest).drop 5)
      else if leadsWith "null".toList (c :: rest) then
        some (JsonVal.null, (c :: rest).drop 4)
      else if leadsWith "NaN".toList (c :: rest) then
        some (JsonVal.flt "NaN".toList, (c :: rest).drop 3)
      else if leadsWith "Infinity".toList (c :: rest) then
        some (JsonVal.flt "Infinity".toList, (c :: rest).drop 8)
      else if leadsWith "-Infinity".toList (c :: rest) then
        some (JsonVal.flt "-Infinity".toList, (c :: rest).drop 9)
      else parseNum (c :: rest)

/-- Parse the members of a JSON object (after the opening brace, at least one
member present).  Duplicate keys follow Python: the last value wins while the
key keeps its first position. -/
def parseMembers : Nat → List Char → PyDict → Option (JsonVal × List Char)
  | 0, _, _ => none
  | Nat.succ f, s, acc =>
    match skipWs s with
    | '"' :: rest =>
      (match parseStringAux (rest.length + 1) rest [] with
       | none => none
       | some (k, s2) =>
         match skipWs s2 with
         | ':' :: s3 =>
           (match parseVal f s3 with
            | none => none
            | some (v, s4) =>
              let acc2 := dictSet acc k v
              match skipWs s4 with
              | ',' :: s5 => parseMembers f s5 acc2
              | '\x7d' :: s5 => some (JsonVal.obj acc2, s5)
              | _ => none)
         | _ => none)
    | _ => none

/-- Parse the items of a JSON array (after the opening bracket, at least one
item present). -/
def parseItems : Nat → List Char → List JsonVal → Option (JsonVal × List Char)
  | 0, _, _ => none
  | Nat.succ f, s, acc =>
    match parseVal f s with
    | none => none
    | some (v, s2) =>
      match skipWs s2 with
      | ',' :: s3 => parseItems f s3 (acc ++ [v])
      | ']' :: s3 => some (JsonVal.arr (acc ++ [v]), s3)
      | _ => none

end

/-- Python `json.loads`: parse a full document, requiring only whitespace
after the value; `none` models a raised `json.JSONDecodeError` (in
particular, `json.loads("")` raises). -/
def json_loads (s : List Char) : Option JsonVal :=
  match parseVal (s.length + 1) s with
  | none => none
  | some (v, rest) => if skipWs rest = [] then some v else none

/- ----------------------------------------------------------------------
LicenseResolver: `get_repository_licence`.
---------------------------------------------------------------------- -/

/-- Whether `pat` occurs anywhere in `s` (used for Python's substring `in`). -/
def occursIn (pat s : List Char) : Bool := (dropUntilAfter pat s).isSome

/-- Python `key in v` for a JSON value: key membership for a dict, element
membership for a list (a string key only equals string elements), substring
containment for a string; `none` models the `TypeError` raised for the other
value shapes. -/
def pyInStr (key : String) : JsonVal → Option Bool
  | JsonVal.obj fs => some (dictLookup key fs).isSome
  | JsonVal.arr l => some (l.any (fun v =>
      match v with
      | JsonVal.str s => s = key
      | _ => false))
  | JsonVal.str s => some (occursIn key.toList s.toList)
  | _ => none

/-- Python `v[key]` with a string key: lookup for a dict (`none` on a missing
key models `KeyError`); `none` models the `TypeError` raised for every
non-dict value. -/
def pySubscriptStr (v : JsonVal) (key : String) : Option JsonVal :=
  match v with
  | JsonVal.obj fs => dictLookup key fs
  | _ => none

/-- `get_repository_licence`, with the fetched license-resource body as
input.  Mirrors

    license_data = json.loads(license_json_data)
    if "license" in license_data and "name" in license_data["license"]:
        return license_data["license"]["name"]
    else:
        return "None"

`Except.error` models the uncaught exceptions (`json.JSONDecodeError` on an
unparseable body — including an empty one — and `TypeError` when the membership
test or subscript hits a non-container value); the `and` is short-circuiting,
as in Python. -/
def get_repository_licence (license_json_data : List Char) : Except String JsonVal :=
  match json_loads license_json_data with
  | none => Except.error "JSONDecodeError"
  | some license_data =>
    match pyInStr "license" license_data with
    | none => Except.error "TypeError"
    | some false => Except.ok (JsonVal.str "None")
    | some true =>
      match pySubscriptStr license_data "license" with
      | none => Except.error "TypeError"
      | some lv =>
        match pyInStr "name" lv with
        | none => Except.error "TypeError"
        | some false => Except.ok (JsonVal.str "None")
        | some true =>
          match pySubscriptStr lv "name" with
          | none => Except.error "TypeError"
          | some nv => Except.ok nv

/- ----------------------------------------------------------------------
RepositoryEnricher: `fill_repository`.
---------------------------------------------------------------------- -/

/-- The environment standing for the network: the text of the search response
for a page number, and of the license-resource and repository-page responses
for a repository's `full_name` value. -/
structure Env where
  search : Int → List Char
  license : JsonVal → List Char
  site : JsonVal → List Char

/-- Python `data[k]` on the raw search entry: `none` models the `KeyError`
(missing key) or `TypeError` (non-dict payload) the subscript would raise. -/
def jsonGet (data : JsonVal) (k : String) : Option JsonVal := pySubscriptStr data k

/-- The base-field projection of `fill_repository`: the dict literal

    result = \x7b"name": data["name"], "owner": data["owner"]["login"], ...\x7d

with its fields in source order; `none` models a raised `KeyError`/`TypeError`
when a required field is missing or the payload is not a dict. -/
def project_base (data : JsonVal) : Option PyDict := do
  let name ← jsonGet data "name"
  let owner ← jsonGet data "owner"
  let login ← jsonGet owner "login"
  let stargazers ← jsonGet data "stargazers_count"
  let forks ← jsonGet data "forks_count"
  let openIssues ← jsonGet data "open_issues_count"
  let language ← jsonGet data "language"
  let createdAt ← jsonGet data "created_at"
  let updatedAt ← jsonGet data "updated_at"
  let pushedAt ← jsonGet data "pushed_at"
  pure [("name", name), ("owner", login), ("stargazers_count", stargazers),
        ("forks_count", forks), ("open_issues_count", openIssues),
        ("language", language), ("created_at", createdAt),
        ("updated_at", updatedAt), ("pushed_at", pushedAt)]

/-- `fill_repository`: project the base fields, resolve the license for
`data["full_name"]`, set `result["license"]`, and merge in the HTML stats:

    return \x7b**result, **get_repository_regex(data["full_name"])\x7d

`none` models any exception raised during the enrichment. -/
def fill_repository (env : Env) (data : JsonVal) : Option PyDict := do
  let result ← project_base data
  let full_name ← jsonGet data "full_name"
  let license_name ← (get_repository_licence (env.license full_name)).toOption
  let result2 := dictSet result "license" license_name
  let stats ← get_repository_regex (env.site full_name)
  pure (dictMerge result2 stats)

/- ----------------------------------------------------------------------
SearchPaginator: `repository_generator`.
---------------------------------------------------------------------- -/

/-- Consecutive integers starting at `a`, `k` of them. -/
def pyRangeAux : Nat → Int → List Int
  | 0, _ => []
  | Nat.succ k, a => a :: pyRangeAux k (a + 1)

/-- Python `range(a, b)` over integers: `a, a+1, ..., b-1`, empty when
`b ≤ a`. -/
def pyRange (a b : Int) : List Int := pyRangeAux (b - a).toNat a

/-- Python iteration `for p in v`: the elements for a list, the characters
(as one-character strings) for a string, the keys for a dict; `none` models
the `TypeError` raised for the non-iterable values. -/
def pyIter : JsonVal → Option (List JsonVal)
  | JsonVal.arr l => some l
  | JsonVal.str s => some (s.toList.map (fun c => JsonVal.str (String.mk [c])))
  | JsonVal.obj fs => some (fs.map (fun kv => JsonVal.str kv.1))
  | _ => none

/-- One page of the generator body:

    repository_list = json.loads(site)["items"]
    for p in repository_list: yield p

`none` models the exception raised when the response body does not parse,
the parsed value has no `"items"` entry, or that entry is not iterable. -/
def pageItems (site : List Char) : Option (List JsonVal) := do
  let j ← json_loads site
  let items ← jsonGet j "items"
  pyIter items

/-- The observable behaviour of one generator run: the entries yielded, in
order; whether the run ended by raising; and the pages actually requested,
in request order. -/
structure GenResult where
  entries : List JsonVal
  aborted : Bool
  requested : List Int

/-- Process the given page numbers in order, stopping at the first page whose
body cannot be iterated (the generator raises there, after having yielded
every entry of the earlier pages). -/
def run_pages (env : Env) : List Int → GenResult
  | [] => GenResult.mk [] false []
  | i :: rest =>
    match pageItems (env.search i) with
    | none => GenResult.mk [] true [i]
    | some items =>
      let r := run_pages env rest
      GenResult.mk (items ++ r.entries) r.aborted (i :: r.requested)

/-- `repository_generator`: pages `range(1, n+1)` in ascending order, each
page one search request, yielding the page's items in page order. -/
def repository_generator (env : Env) (n : Int) : GenResult :=
  run_pages env (pyRange 1 (n + 1))

/- ----------------------------------------------------------------------
CollectionPipeline: `main`.
---------------------------------------------------------------------- -/

/-- The `fieldnames` list passed to `csv.DictWriter` in `main`. -/
def fieldnames : List String :=
  ["owner", "name", "language", "stargazers_count", "commit_count",
   "branch_count", "release_count", "open_issues_count", "contributor_count",
   "forks_count", "license", "created_at", "pushed_at", "updated_at"]

/-- The header row written by `writer.writeheader()`. -/
def headerRow : List JsonVal := fieldnames.map JsonVal.str

/-- `writer.writerow(repository)`: one cell per field name, in header order.
Cells hold the dict values themselves; their textual CSV rendering is the
`csv` module's concern.  (`DictWriter`'s `restval` default `''` fills a
missing key; every record written by this pipeline has all 14 keys.) -/
def writerow (d : PyDict) : List JsonVal :=
  fieldnames.map (fun k => (dictLookup k d).getD (JsonVal.str ""))

/-- The body of the pipeline loop: enrich each yielded entry in order and
write its row, stopping when an enrichment raises.  Returns the data rows
written and whether the loop ended by raising. -/
def write_rows (env : Env) : List JsonVal → List (List JsonVal) × Bool
  | [] => ([], false)
  | p :: rest =>
    match fill_repository env p with
    | none => ([], true)
    | some repository =>
      let r := write_rows env rest
      (writerow repository :: r.1, r.2)

namespace github_analysis

/-- `main`: open the CSV file in mode `'w'` (truncating whatever `prev`
content the file held — hence the `prev` parameter is ignored), write the
header, then stream the rows for `repository_generator(10)`.  Returns the
final file content as rows, plus whether the run ended by raising (from the
generator or an enrichment). -/
def main (env : Env) (_prev : List (List JsonVal)) : List (List JsonVal) × Bool :=
  let g := repository_generator env 10
  let w := write_rows env g.entries
  (headerRow :: w.1, w.2 || g.aborted)

end github_analysis


/- ----------------------------------------------------------------------
Helper lemmas.
---------------------------------------------------------------------- -/

theorem leadsWith_append_self : ∀ (p r : List Char), leadsWith p (p ++ r) = true := by
  intro p
  induction p with
  | nil => intro r; rfl
  | cons c ps ih =>
    intro r
    simp [leadsWith, ih r]

theorem dropUntilAfter_self (pat r : List Char) (hp : pat ≠ []) :
    dropUntilAfter pat (pat ++ r) = some r := by
  cases pat with
  | nil => exact absurd rfl hp
  | cons p ps =>
    show dropUntilAfter (p :: ps) (p :: (ps ++ r)) = some r
    rw [dropUntilAfter]
    have h1 : leadsWith (p :: ps) (p :: (ps ++ r)) = true := leadsWith_append_self (p :: ps) r
    rw [h1]
    have h2 : (p :: (ps ++ r)).drop (p :: ps).length = r := List.drop_left (p :: ps) r
    simp [h2]

theorem takeWhile_append_all (p : Char → Bool) :
    ∀ (g r : List Char), (∀ c ∈ g, p c = true) →
      (∀ c, r.head? = some c → p c = false) → (g ++ r).takeWhile p = g := by
  intro g
  induction g with
  | nil =>
    intro r _ hr
    cases r with
    | nil => rfl
    | cons c cs =>
      simp [List.takeWhile, hr c rfl]
  | cons c g2 ih =>
    intro r hg hr
    have hc : p c = true := hg c (List.mem_cons_self c g2)
    simp [List.takeWhile, hc]
    exact ih r (fun x hx => hg x (List.mem_cons_of_mem c hx)) hr

theorem dropWhile_append_all (p : Char → Bool) :
    ∀ (g r : List Char), (∀ c ∈ g, p c = true) →
      (∀ c, r.head? = some c → p c = false) → (g ++ r).dropWhile p = r := by
  intro g
  induction g with
  | nil =>
    intro r _ hr
    cases r with
    | nil => rfl
    | cons c cs =>
      simp [List.dropWhile, hr c rfl]
  | cons c g2 ih =>
    intro r hg hr
    have hc : p c = true := hg c (List.mem_cons_self c g2)
    simp [List.dropWhile, hc]
    exact ih r (fun x hx => hg x (List.mem_cons_of_mem c hx)) hr

theorem dropWhile_head_false (p : Char → Bool) (c : Char) (l : List Char)
    (hc : p c = false) : (c :: l).dropWhile p = c :: l := by
  simp [List.dropWhile, hc]

theorem scanGroup_badge (g r : List Char) (hne : g ≠ [])
    (hdig : ∀ c ∈ g, c.isDigit = true) : scanGroup (badge g ++ r) = some (g, r) := by
  have h1 : badge g ++ r = spanLit ++ (g ++ (closeLit ++ r)) := by
    simp [badge, List.append_assoc]
  obtain ⟨c, g2, rfl⟩ := List.exists_cons_of_ne_nil hne
  have hc : c.isDigit = true := hdig c (List.mem_cons_self c g2)
  rw [scanGroup, h1, dropUntilAfter_self spanLit _ (by decide)]
  have h2 : ((c :: g2) ++ (closeLit ++ r)).dropWhile (fun x => !x.isDigit)
      = (c :: g2) ++ (closeLit ++ r) := by
    apply dropWhile_head_false
    simp [hc]
  have hhead : ∀ x, (closeLit ++ r).head? = some x → x.isDigit = false := by
    intro x hx
    have hx2 : x = '<' := by
      simp [closeLit] at hx
      exact hx.symm
    subst hx2
    decide
  have h3 : ((c :: g2) ++ (closeLit ++ r)).takeWhile Char.isDigit = c :: g2 :=
    takeWhile_append_all Char.isDigit (c :: g2) (closeLit ++ r) hdig hhead
  have h4 : ((c :: g2) ++ (closeLit ++ r)).dropWhile Char.isDigit = closeLit ++ r :=
    dropWhile_append_all Char.isDigit (c :: g2) (closeLit ++ r) hdig hhead
  simp only [Option.some_bind, Option.bind_some, bind, Option.bind]
  rw [h2, h3, h4]
  rw [if_neg (by simp)]
  rw [dropUntilAfter_self closeLit r (by decide)]
  rfl

theorem regex_match_fourBadges (g1 g2 g3 g4 rest : List Char)
    (h1 : g1 ≠ [] ∧ ∀ c ∈ g1, c.isDigit = true)
    (h2 : g2 ≠ [] ∧ ∀ c ∈ g2, c.isDigit = true)
    (h3 : g3 ≠ [] ∧ ∀ c ∈ g3, c.isDigit = true)
    (h4 : g4 ≠ [] ∧ ∀ c ∈ g4, c.isDigit = true) :
    regex_cbrcl_match (fourBadges g1 g2 g3 g4 ++ rest) = some (g1, g2, g3, g4) := by
  have hsplit : fourBadges g1 g2 g3 g4 ++ rest
      = liLit ++ (badge g1 ++ (badge g2 ++ (badge g3 ++ (badge g4 ++ rest)))) := by
    simp [fourBadges, List.append_assoc]
  rw [regex_cbrcl_match, hsplit, dropUntilAfter_self liLit _ (by decide)]
  simp only [bind, Option.bind]
  rw [scanGroup_badge g1 _ h1.1 h1.2]
  simp only [Option.bind]
  rw [scanGroup_badge g2 _ h2.1 h2.2]
  simp only [Option.bind]
  rw [scanGroup_badge g3 _ h3.1 h3.2]
  simp only [Option.bind]
  rw [scanGroup_badge g4 rest h4.1 h4.2]
  rfl

theorem get_repository_regex_shape (s : List Char) (stats : PyDict)
    (h : get_repository_regex s = some stats) :
    ∃ a b c d, stats = [("commit_count", JsonVal.num a), ("branch_count", JsonVal.num b),
      ("release_count", JsonVal.num c), ("contributor_count", JsonVal.num d)] := by
  rw [get_repository_regex] at h
  cases hm : regex_cbrcl_match s with
  | none => rw [hm] at h; exact absurd h (by simp)
  | some g =>
    rw [hm] at h
    obtain ⟨gg1, gg2, gg3, gg4⟩ := g
    exact ⟨_, _, _, _, (Option.some.inj h).symm⟩

theorem project_base_shape (data : JsonVal) (base : PyDict)
    (h : project_base data = some base) :
    ∃ name login stargazers forks openIssues language createdAt updatedAt pushedAt,
      base = [("name", name), ("owner", login), ("stargazers_count", stargazers),
              ("forks_count", forks), ("open_issues_count", openIssues),
              ("language", language), ("created_at", createdAt),
              ("updated_at", updatedAt), ("pushed_at", pushedAt)] := by
  simp only [project_base, bind, Option.bind_eq_some] at h
  obtain ⟨name, _, ⟨owner, _, ⟨login, _, ⟨st, _, ⟨fk, _, ⟨oi, _, ⟨lg, _, ⟨ca, _, ⟨ua, _, ⟨pa, _, hh⟩⟩⟩⟩⟩⟩⟩⟩⟩⟩ := h
  exact ⟨name, login, st, fk, oi, lg, ca, ua, pa, (Option.some.inj hh).symm⟩

theorem fill_repository_shape (env : Env) (data : JsonVal) (d : PyDict)
    (h : fill_repository env data = some d) :
    ∃ base fn ln stats, project_base data = some base ∧
      jsonGet data "full_name" = some fn ∧
      (get_repository_licence (env.license fn)).toOption = some ln ∧
      get_repository_regex (env.site fn) = some stats ∧
      d = dictMerge (dictSet base "license" ln) stats := by
  simp only [fill_repository, bind, Option.bind_eq_some] at h
  obtain ⟨base, hb, fn, hf, ln, hl, stats, hs, hd⟩ := h
  exact ⟨base, fn, ln, stats, hb, hf, hl, hs, (Option.some.inj hd).symm⟩

theorem writerow_length (d : PyDict) : (writerow d).length = fieldnames.length := by
  simp [writerow]

theorem write_rows_stops (env : Env) (pk : JsonVal) (post : List JsonVal)
    (hfail : fill_repository env pk = none) :
    ∀ pre, (∀ p ∈ pre, (fill_repository env p).isSome) →
    ∃ rows, write_rows env (pre ++ pk :: post) = (rows, true) ∧
      rows.length = pre.length ∧
      List.Forall₂ (fun p row => ∃ r, fill_repository env p = some r ∧ row = writerow r) pre rows ∧
      (∀ row ∈ rows, row.length = fieldnames.length) := by
  intro pre
  induction pre with
  | nil =>
    intro _
    refine ⟨[], ?_, rfl, List.Forall₂.nil, by simp⟩
    simp [write_rows, hfail]
  | cons q pre2 ih =>
    intro hpre
    have hq : (fill_repository env q).isSome := hpre q (List.mem_cons_self q pre2)
    obtain ⟨r, hr⟩ := Option.isSome_iff_exists.mp hq
    obtain ⟨rows, hw, hlen, hfa, hrl⟩ := ih (fun p hp => hpre p (List.mem_cons_of_mem q hp))
    refine ⟨writerow r :: rows, ?_, by simp [hlen], List.Forall₂.cons ⟨r, hr, rfl⟩ hfa, ?_⟩
    · simp [write_rows, hr, hw]
    · intro row hrow
      rcases List.mem_cons.mp hrow with h | h
      · subst h; exact writerow_length r
      · exact hrl row h

theorem run_pages_all_ok (env : Env) :
    ∀ ps, (∀ i ∈ ps, (pageItems (env.search i)).isSome) →
    run_pages env ps = GenResult.mk
      (ps.flatMap (fun i => (pageItems (env.search i)).getD [])) false ps := by
  intro ps
  induction ps with
  | nil => intro _; rfl
  | cons i rest ih =>
    intro hp
    have hi := hp i (List.mem_cons_self i rest)
    obtain ⟨its, hits⟩ := Option.isSome_iff_exists.mp hi
    simp [run_pages, hits, ih (fun j hj => hp j (List.mem_cons_of_mem i hj))]

theorem flatMap_pageItems_length (env : Env) :
    ∀ ps : List Int, (∀ i ∈ ps, ∃ its, pageItems (env.search i) = some its ∧ its.length = 100) →
    (ps.flatMap (fun i => (pageItems (env.search i)).getD [])).length = ps.length * 100 := by
  intro ps
  induction ps with
  | nil => intro _; rfl
  | cons i rest ih =>
    intro hp
    obtain ⟨its, hits, hlen⟩ := hp i (List.mem_cons_self i rest)
    have ih2 := ih (fun j hj => hp j (List.mem_cons_of_mem i hj))
    simp [List.flatMap_cons, hits, hlen, ih2]
    ring

theorem mem_pyRangeAux : ∀ (k : Nat) (a i : Int),
    i ∈ pyRangeAux k a ↔ a ≤ i ∧ i < a + Int.ofNat k := by
  intro k
  induction k with
  | zero =>
    intro a i
    simp only [pyRangeAux, List.not_mem_nil, Int.ofNat_eq_coe, false_iff, not_and, not_lt]
    omega
  | succ k2 ih =>
    intro a i
    simp only [pyRangeAux, List.mem_cons, ih (a + 1) i, Int.ofNat_eq_coe]
    constructor
    · rintro (rfl | ⟨hy1, hy2⟩)
      · constructor <;> omega
      · constructor <;> omega
    · intro ⟨hy1, hy2⟩
      rcases eq_or_lt_of_le hy1 with rfl | hlt
      · exact Or.inl rfl
      · right; constructor <;> omega

theorem mem_pyRange (a b i : Int) : i ∈ pyRange a b ↔ a ≤ i ∧ i < b := by
  rw [pyRange, mem_pyRangeAux]
  simp only [Int.ofNat_eq_coe]
  omega

theorem pyRangeAux_pairwise : ∀ (k : Nat) (a : Int),
    List.Pairwise (fun x y => x < y) (pyRangeAux k a) := by
  intro k
  induction k with
  | zero => intro a; exact List.Pairwise.nil
  | succ k2 ih =>
    intro a
    refine List.Pairwise.cons ?_ (ih (a + 1))
    intro y hy
    have h := (mem_pyRangeAux k2 (a + 1) y).mp hy
    omega

theorem pyRangeAux_length : ∀ (k : Nat) (a : Int), (pyRangeAux k a).length = k := by
  intro k
  induction k with
  | zero => intro a; rfl
  | succ k2 ih => intro a; simp [pyRangeAux, ih]

/- ----------------------------------------------------------------------
Concrete sample inputs used by witnesses and counterexamples.
---------------------------------------------------------------------- -/

/-- A repository page fragment carrying the four numeric badges with the
values `10, 2, 3, 4`, in page order, with ordinary markup text between
badges. -/
def samplePage : List Char :=
  ("<li class=\"commits\">\n  <span class=\"num text-emphasized\"> 10 </span> commits\n"
    ++ "<span class=\"num text-emphasized\"> 2 </span>\n"
    ++ "<span class=\"num text-emphasized\"> 3 </span>\n"
    ++ "<span class=\"num text-emphasized\"> 4 </span></li>").toList

/-- The HtmlStats record the code extracts from `samplePage`. -/
def sampleStats : PyDict :=
  [("commit_count", JsonVal.num 10), ("branch_count", JsonVal.num 2),
   ("release_count", JsonVal.num 4), ("contributor_count", JsonVal.num 3)]

/-- A license sub-resource body carrying a license name. -/
def sampleLicenseBody : List Char := "\x7b\"license\":\x7b\"name\":\"MIT\"\x7d\x7d".toList

/-- A license sub-resource body whose `license` entry lacks a `name`. -/
def sampleLicenseNoName : List Char := "\x7b\"license\":\x7b\"key\":\"mit\"\x7d\x7d".toList

/-- One raw search entry, as parsed from the search response. -/
def sampleEntry : JsonVal :=
  JsonVal.obj [("name", JsonVal.str "x"),
               ("owner", JsonVal.obj [("login", JsonVal.str "o")]),
               ("full_name", JsonVal.str "o/x"),
               ("stargazers_count", JsonVal.num 5),
               ("forks_count", JsonVal.num 1),
               ("open_issues_count", JsonVal.num 0),
               ("language", JsonVal.str "Go"),
               ("created_at", JsonVal.str "2020-01-01T00:00:00Z"),
               ("updated_at", JsonVal.str "2021-01-01T00:00:00Z"),
               ("pushed_at", JsonVal.str "2021-06-01T00:00:00Z")]

/-- An environment whose first search page holds `sampleEntry` followed by an
empty object (whose enrichment fails on the missing `name` key); every other
response is the sample license body and the sample page. -/
def sampleEnv : Env :=
  Env.mk
    (fun i => if i = 1
      then ("\x7b\"items\":[\x7b\"name\":\"x\",\"owner\":\x7b\"login\":\"o\"\x7d,"
        ++ "\"full_name\":\"o/x\",\"stargazers_count\":5,\"forks_count\":1,"
        ++ "\"open_issues_count\":0,\"language\":\"Go\","
        ++ "\"created_at\":\"2020-01-01T00:00:00Z\","
        ++ "\"updated_at\":\"2021-01-01T00:00:00Z\","
        ++ "\"pushed_at\":\"2021-06-01T00:00:00Z\"\x7d,\x7b\x7d]\x7d").toList
      else [])
    (fun _ => sampleLicenseBody)
    (fun _ => samplePage)

/-- The record `fill_repository` produces for `sampleEntry` under
`sampleEnv`. -/
def sampleRecord : PyDict :=
  [("name", JsonVal.str "x"), ("owner", JsonVal.str "o"),
   ("stargazers_count", JsonVal.num 5), ("forks_count", JsonVal.num 1),
   ("open_issues_count", JsonVal.num 0), ("language", JsonVal.str "Go"),
   ("created_at", JsonVal.str "2020-01-01T00:00:00Z"),
   ("updated_at", JsonVal.str "2021-01-01T00:00:00Z"),
   ("pushed_at", JsonVal.str "2021-06-01T00:00:00Z"),
   ("license", JsonVal.str "MIT"),
   ("commit_count", JsonVal.num 10), ("branch_count", JsonVal.num 2),
   ("release_count", JsonVal.num 4), ("contributor_count", JsonVal.num 3)]

/-- An environment with no useful responses at all. -/
def trivEnv : Env := Env.mk (fun _ => []) (fun _ => []) (fun _ => [])

/-- A search page of exactly 100 items (the integers do not matter to the
paginator, which yields them as opaque entries). -/
def hundredItemsPage : List Char :=
  ("\x7b\"items\":[0" ++ String.join (List.replicate 99 ",0") ++ "]\x7d").toList

/-- The parsed items of `hundredItemsPage`. -/
def hundredItems : List JsonVal := List.replicate 100 (JsonVal.num 0)

/-- An environment whose every search page is `hundredItemsPage`. -/
def hundredEnv : Env :=
  Env.mk (fun _ => hundredItemsPage) (fun _ => []) (fun _ => [])

/- ----------------------------------------------------------------------
Claim theorems.
---------------------------------------------------------------------- -/

/-- C1 (counterexample).  On a page whose four consecutive numeric badges
carry `10, 2, 3, 4` in page order (`samplePage`), the extraction succeeds and
assigns `branch_count = 2` (the second badge) and `contributor_count = 3`
(the third badge) — not `branch_count = 3` and `contributor_count = 2` as the
claim states. -/
theorem get_repository_regex_page_order_counterexample :
    get_repository_regex samplePage = some sampleStats ∧
    dictLookup "branch_count" ((get_repository_regex samplePage).getD []) =
      some (JsonVal.num 2) ∧
    dictLookup "contributor_count" ((get_repository_regex samplePage).getD []) =
      some (JsonVal.num 3) :=
  ⟨rfl, rfl, rfl⟩

/-- C1 (amended).  For every page built of the pattern's opening literal
followed by four consecutive numeric badges with captured digit strings
`g1, g2, g3, g4` in page order, `get_repository_regex` returns the record
`commit_count = int g1, branch_count = int g2, release_count = int g4,
contributor_count = int g3`: the first two page positions map to
`commit_count`/`branch_count` directly and the last two are swapped into
`release_count`/`contributor_count`. -/
theorem get_repository_regex_reorders (g1 g2 g3 g4 : List Char)
    (h1 : g1 ≠ [] ∧ ∀ c ∈ g1, c.isDigit = true)
    (h2 : g2 ≠ [] ∧ ∀ c ∈ g2, c.isDigit = true)
    (h3 : g3 ≠ [] ∧ ∀ c ∈ g3, c.isDigit = true)
    (h4 : g4 ≠ [] ∧ ∀ c ∈ g4, c.isDigit = true) :
    get_repository_regex (fourBadges g1 g2 g3 g4) =
      some [("commit_count", JsonVal.num (Int.ofNat (readNat g1))),
            ("branch_count", JsonVal.num (Int.ofNat (readNat g2))),
            ("release_count", JsonVal.num (Int.ofNat (readNat g4))),
            ("contributor_count", JsonVal.num (Int.ofNat (readNat g3)))] := by
  have hm := regex_match_fourBadges g1 g2 g3 g4 [] h1 h2 h3 h4
  rw [List.append_nil] at hm
  rw [get_repository_regex, hm]

/-- C1 (witness).  The amended theorem evaluated at the badge values
`10, 2, 3, 4`. -/
theorem get_repository_regex_reorders_witness :
    get_repository_regex (fourBadges "10".toList "2".toList "3".toList "4".toList) =
      some [("commit_count", JsonVal.num (Int.ofNat (readNat "10".toList))),
            ("branch_count", JsonVal.num (Int.ofNat (readNat "2".toList))),
            ("release_count", JsonVal.num (Int.ofNat (readNat "4".toList))),
            ("contributor_count", JsonVal.num (Int.ofNat (readNat "3".toList)))] :=
  get_repository_regex_reorders "10".toList "2".toList "3".toList "4".toList
    ⟨by decide, by decide⟩ ⟨by decide, by decide⟩ ⟨by decide, by decide⟩ ⟨by decide, by decide⟩

/-- C9.  The extraction is deterministic: two runs on identical markup that
succeed return the same record (the extractor is a pure function of the
fetched markup). -/
theorem get_repository_regex_deterministic (site : List Char) (r1 r2 : PyDict)
    (h1 : get_repository_regex site = some r1)
    (h2 : get_repository_regex site = some r2) : r1 = r2 := by
  rw [h1] at h2
  exact Option.some.inj h2

/-- C9 (witness).  Determinism instantiated on `samplePage`. -/
theorem get_repository_regex_deterministic_witness : sampleStats = sampleStats :=
  get_repository_regex_deterministic samplePage sampleStats sampleStats rfl rfl

/-- C8.  Failure and first-match policy of the extraction: (1) markup not
containing the pattern's opening literal yields no record at all (the
`IndexError` case, the spec's `ParseError`); (2) a successful extraction
always carries all four counters — never a partial record; (3) when several
match-sets exist (a four-badge block followed by arbitrary further text,
e.g. a second four-badge block), the first is taken. -/
theorem get_repository_regex_failure_first_match :
    (∀ site, occursIn liLit site = false → get_repository_regex site = none) ∧
    (∀ site stats, get_repository_regex site = some stats →
      ∃ a b c d, stats =
        [("commit_count", JsonVal.num a), ("branch_count", JsonVal.num b),
         ("release_count", JsonVal.num c), ("contributor_count", JsonVal.num d)]) ∧
    (∀ g1 g2 g3 g4 rest : List Char,
      (g1 ≠ [] ∧ ∀ c ∈ g1, c.isDigit = true) →
      (g2 ≠ [] ∧ ∀ c ∈ g2, c.isDigit = true) →
      (g3 ≠ [] ∧ ∀ c ∈ g3, c.isDigit = true) →
      (g4 ≠ [] ∧ ∀ c ∈ g4, c.isDigit = true) →
      get_repository_regex (fourBadges g1 g2 g3 g4 ++ rest) =
        some [("commit_count", JsonVal.num (Int.ofNat (readNat g1))),
              ("branch_count", JsonVal.num (Int.ofNat (readNat g2))),
              ("release_count", JsonVal.num (Int.ofNat (readNat g4))),
              ("contributor_count", JsonVal.num (Int.ofNat (readNat g3)))]) := by
  refine ⟨?_, get_repository_regex_shape, ?_⟩
  · intro site h
    have hnone : dropUntilAfter liLit site = none := by
      cases hd : dropUntilAfter liLit site with
      | none => rfl
      | some t => rw [occursIn, hd] at h; exact absurd h (by simp)
    rw [get_repository_regex]
    have hm : regex_cbrcl_match site = none := by
      rw [regex_cbrcl_match]
      simp only [bind, hnone, Option.bind]
    rw [hm]
  · intro g1 g2 g3 g4 rest h1 h2 h3 h4
    rw [get_repository_regex, regex_match_fourBadges g1 g2 g3 g4 rest h1 h2 h3 h4]

/-- C8 (witness).  The first conjunct on markup with no badge list at all,
and the third on a page holding two four-badge blocks (values `10, 2, 3, 4`
then `5, 6, 7, 8`): the first block wins. -/
theorem get_repository_regex_failure_first_match_witness :
    get_repository_regex "<html><body>hello</body></html>".toList = none ∧
    get_repository_regex
      (fourBadges "10".toList "2".toList "3".toList "4".toList ++
       fourBadges "5".toList "6".toList "7".toList "8".toList) =
      some [("commit_count", JsonVal.num (Int.ofNat (readNat "10".toList))),
            ("branch_count", JsonVal.num (Int.ofNat (readNat "2".toList))),
            ("release_count", JsonVal.num (Int.ofNat (readNat "4".toList))),
            ("contributor_count", JsonVal.num (Int.ofNat (readNat "3".toList)))] :=
  ⟨get_repository_regex_failure_first_match.1 _ (by decide),
   get_repository_regex_failure_first_match.2.2 "10".toList "2".toList "3".toList "4".toList _
     ⟨by decide, by decide⟩ ⟨by decide, by decide⟩ ⟨by decide, by decide⟩ ⟨by decide, by decide⟩⟩

/-- C3 (counterexample).  On an entirely empty response body the license
lookup does not return the sentinel `"None"`: `json.loads("")` raises a
decode error which propagates out of `get_repository_licence`. -/
theorem get_repository_licence_empty_body_counterexample :
    get_repository_licence "".toList = Except.error "JSONDecodeError" ∧
    get_repository_licence "".toList ≠ Except.ok (JsonVal.str "None") :=
  ⟨rfl, by intro h; exact Except.noConfusion h⟩

/-- C3 (amended).  The license lookup returns the literal data value
`"None"` when the response parses to an object without a `license` key
(in particular the empty object `\x7b\x7d`) or whose `license` object lacks a
`name` key, and returns the name value when the response contains
`\x7blicense: \x7bname\x7d\x7d`; an entirely empty (unparseable) response body instead
raises a JSON decode error. -/
theorem get_repository_licence_spec :
    (∀ txt, json_loads txt = none →
        get_repository_licence txt = Except.error "JSONDecodeError") ∧
    (∀ txt fs, json_loads txt = some (JsonVal.obj fs) → dictLookup "license" fs = none →
        get_repository_licence txt = Except.ok (JsonVal.str "None")) ∧
    (∀ txt fs ls, json_loads txt = some (JsonVal.obj fs) →
        dictLookup "license" fs = some (JsonVal.obj ls) → dictLookup "name" ls = none →
        get_repository_licence txt = Except.ok (JsonVal.str "None")) ∧
    (∀ txt fs ls v, json_loads txt = some (JsonVal.obj fs) →
        dictLookup "license" fs = some (JsonVal.obj ls) → dictLookup "name" ls = some v →
        get_repository_licence txt = Except.ok v) := by
  refine ⟨?_, ?_, ?_, ?_⟩
  · intro txt h
    rw [get_repository_licence, h]
  · intro txt fs h hl
    rw [get_repository_licence, h]
    simp [pyInStr, hl]
  · intro txt fs ls h hl hn
    rw [get_repository_licence, h]
    simp [pyInStr, pySubscriptStr, hl, hn]
  · intro txt fs ls v h hl hn
    rw [get_repository_licence, h]
    simp [pyInStr, pySubscriptStr, hl, hn]

/-- C3 (witness).  The four cases instantiated: the empty body (decode
error), the empty object and a `license` object without `name` (both the
sentinel `"None"`), and a `license.name` of `"MIT"`. -/
theorem get_repository_licence_spec_witness :
    get_repository_licence "".toList = Except.error "JSONDecodeError" ∧
    get_repository_licence "\x7b\x7d".toList = Except.ok (JsonVal.str "None") ∧
    get_repository_licence sampleLicenseNoName = Except.ok (JsonVal.str "None") ∧
    get_repository_licence sampleLicenseBody = Except.ok (JsonVal.str "MIT") :=
  ⟨get_repository_licence_spec.1 "".toList rfl,
   get_repository_licence_spec.2.1 "\x7b\x7d".toList [] rfl rfl,
   get_repository_licence_spec.2.2.1 sampleLicenseNoName
     [("license", JsonVal.obj [("key", JsonVal.str "mit")])]
     [("key", JsonVal.str "mit")] rfl rfl rfl,
   get_repository_licence_spec.2.2.2 sampleLicenseBody
     [("license", JsonVal.obj [("name", JsonVal.str "MIT")])]
     [("name", JsonVal.str "MIT")] (JsonVal.str "MIT") rfl rfl rfl⟩

/-- C2 (counterexample).  The enricher's record for the sample entry has 14
named fields, not 13: the nine projected base fields, the license field, and
the four HTML counters. -/
theorem fill_repository_thirteen_counterexample :
    (fill_repository sampleEnv sampleEntry).map List.length = some 14 ∧
    (fill_repository sampleEnv sampleEntry).map List.length ≠ some 13 := by
  have h : (fill_repository sampleEnv sampleEntry).map List.length = some 14 := rfl
  exact ⟨h, by rw [h]; decide⟩

/-- C2 (amended).  Every record the enricher produces is flattened into
exactly 14 named fields — the nine projected base fields, the license field,
and the four HTML counters, with no duplicate names — in insertion order. -/
theorem fill_repository_fields (env : Env) (data : JsonVal) (d : PyDict)
    (h : fill_repository env data = some d) :
    dictKeys d = ["name", "owner", "stargazers_count", "forks_count",
      "open_issues_count", "language", "created_at", "updated_at", "pushed_at",
      "license", "commit_count", "branch_count", "release_count",
      "contributor_count"] ∧
    d.length = 14 ∧ (dictKeys d).Nodup := by
  obtain ⟨base, fn, ln, stats, hb, hf, hl, hs, hd⟩ := fill_repository_shape env data d h
  obtain ⟨v1, v2, v3, v4, v5, v6, v7, v8, v9, hbase⟩ := project_base_shape data base hb
  obtain ⟨a, b, c, e, hstats⟩ := get_repository_regex_shape _ stats hs
  subst hbase hstats hd
  have hk : dictKeys (dictMerge (dictSet
      [("name", v1), ("owner", v2), ("stargazers_count", v3), ("forks_count", v4),
       ("open_issues_count", v5), ("language", v6), ("created_at", v7),
       ("updated_at", v8), ("pushed_at", v9)] "license" ln)
      [("commit_count", JsonVal.num a), ("branch_count", JsonVal.num b),
       ("release_count", JsonVal.num c), ("contributor_count", JsonVal.num e)])
      = ["name", "owner", "stargazers_count", "forks_count", "open_issues_count",
         "language", "created_at", "updated_at", "pushed_at", "license",
         "commit_count", "branch_count", "release_count", "contributor_count"] := rfl
  refine ⟨hk, rfl, ?_⟩
  rw [hk]
  decide

/-- C2 (witness).  The field list evaluated on the sample entry. -/
theorem fill_repository_fields_witness :
    dictKeys sampleRecord = ["name", "owner", "stargazers_count", "forks_count",
      "open_issues_count", "language", "created_at", "updated_at", "pushed_at",
      "license", "commit_count", "branch_count", "release_count",
      "contributor_count"] ∧
    sampleRecord.length = 14 ∧ (dictKeys sampleRecord).Nodup :=
  fill_repository_fields sampleEnv sampleEntry sampleRecord rfl

/-- C7.  No field collisions in the enricher's merged record: the three
sources' field-name sets (projected base fields; the license field; the HTML
counters) are pairwise disjoint, every successful record is the plain
concatenation of the three sources (so each output column is traceable to
exactly one source), and the final last-write-wins `\x7b**result, **stats\x7d`
merge changes no base or license value: every key of the pre-merge record
looks up to the same value in the merged record. -/
theorem fill_repository_no_collision :
    (List.Pairwise (fun l1 l2 => ∀ k, k ∈ l1 → k ∉ l2)
      [["name", "owner", "stargazers_count", "forks_count", "open_issues_count",
        "language", "created_at", "updated_at", "pushed_at"], ["license"],
       ["commit_count", "branch_count", "release_count", "contributor_count"]]) ∧
    (∀ env data d, fill_repository env data = some d →
      ∃ base ln stats,
        dictKeys base = ["name", "owner", "stargazers_count", "forks_count",
          "open_issues_count", "language", "created_at", "updated_at", "pushed_at"] ∧
        dictKeys stats = ["commit_count", "branch_count", "release_count",
          "contributor_count"] ∧
        d = dictMerge (dictSet base "license" ln) stats ∧
        d = dictSet base "license" ln ++ stats ∧
        (∀ k, k ∈ dictKeys (dictSet base "license" ln) →
          dictLookup k d = dictLookup k (dictSet base "license" ln)) ∧
        (∀ k, k ∈ dictKeys stats → dictLookup k d = dictLookup k stats)) := by
  constructor
  · decide
  · intro env data d h
    obtain ⟨base, fn, ln, stats, hb, hf, hl, hs, hd⟩ := fill_repository_shape env data d h
    obtain ⟨v1, v2, v3, v4, v5, v6, v7, v8, v9, hbase⟩ := project_base_shape data base hb
    obtain ⟨a, b, c, e, hstats⟩ := get_repository_regex_shape _ stats hs
    subst hbase hstats hd
    refine ⟨[("name", v1), ("owner", v2), ("stargazers_count", v3), ("forks_count", v4),
        ("open_issues_count", v5), ("language", v6), ("created_at", v7),
        ("updated_at", v8), ("pushed_at", v9)], ln,
      [("commit_count", JsonVal.num a), ("branch_count", JsonVal.num b),
        ("release_count", JsonVal.num c), ("contributor_count", JsonVal.num e)],
      rfl, rfl, rfl, rfl, ?_, ?_⟩
    · intro k hk
      have hkeys : dictKeys (dictSet
          [("name", v1), ("owner", v2), ("stargazers_count", v3), ("forks_count", v4),
           ("open_issues_count", v5), ("language", v6), ("created_at", v7),
           ("updated_at", v8), ("pushed_at", v9)] "license" ln)
          = ["name", "owner", "stargazers_count", "forks_count", "open_issues_count",
             "language", "created_at", "updated_at", "pushed_at", "license"] := rfl
      rw [hkeys] at hk
      have hk2 : k = "name" ∨ k = "owner" ∨ k = "stargazers_count" ∨
          k = "forks_count" ∨ k = "open_issues_count" ∨ k = "language" ∨
          k = "created_at" ∨ k = "updated_at" ∨ k = "pushed_at" ∨ k = "license" := by
        simpa using hk
      rcases hk2 with rfl | rfl | rfl | rfl | rfl | rfl | rfl | rfl | rfl | rfl <;> rfl
    · intro k hk
      have hkeys : dictKeys
          [("commit_count", JsonVal.num a), ("branch_count", JsonVal.num b),
           ("release_count", JsonVal.num c), ("contributor_count", JsonVal.num e)]
          = ["commit_count", "branch_count", "release_count", "contributor_count"] := rfl
      rw [hkeys] at hk
      have hk2 : k = "commit_count" ∨ k = "branch_count" ∨ k = "release_count" ∨
          k = "contributor_count" := by
        simpa using hk
      rcases hk2 with rfl | rfl | rfl | rfl <;> rfl

/-- C7 (witness).  The collision-freedom conjunct instantiated on the sample
entry's record. -/
theorem fill_repository_no_collision_witness :
    ∃ base ln stats,
      dictKeys base = ["name", "owner", "stargazers_count", "forks_count",
        "open_issues_count", "language", "created_at", "updated_at", "pushed_at"] ∧
      dictKeys stats = ["commit_count", "branch_count", "release_count",
        "contributor_count"] ∧
      sampleRecord = dictMerge (dictSet base "license" ln) stats ∧
      sampleRecord = dictSet base "license" ln ++ stats ∧
      (∀ k, k ∈ dictKeys (dictSet base "license" ln) →
        dictLookup k sampleRecord = dictLookup k (dictSet base "license" ln)) ∧
      (∀ k, k ∈ dictKeys stats → dictLookup k sampleRecord = dictLookup k stats) :=
  fill_repository_no_collision.2 sampleEnv sampleEntry sampleRecord rfl

/-- C6.  The output file's header row holds exactly, in order: owner, name,
language, stargazers_count, commit_count, branch_count, release_count,
open_issues_count, contributor_count, forks_count, license, created_at,
pushed_at, updated_at (no `watchers_count` column); and the file is truncated
and rewritten from scratch on every run — the output is the same whatever
content (`prev`) the file held before. -/
theorem main_header_truncation (env : Env) (prev : List (List JsonVal)) :
    (github_analysis.main env prev).1.head? = some (List.map JsonVal.str
      ["owner", "name", "language", "stargazers_count", "commit_count",
       "branch_count", "release_count", "open_issues_count", "contributor_count",
       "forks_count", "license", "created_at", "pushed_at", "updated_at"]) ∧
    github_analysis.main env prev = github_analysis.main env [] :=
  ⟨rfl, rfl⟩

/-- C4.  If the `k`-th enrichment fails (the yielded entries split as
`pre ++ pk :: post` with every entry of `pre` enriching successfully and
`pk` failing, so `k = pre.length + 1 ≥ 1`), the run terminates with exactly
`k - 1` data rows plus the header row in the output, each already-written
row is exactly the row of the corresponding successfully-enriched entry of
`pre` (in order, unchanged), nothing past `pk` is written, and every row of
the file has the full column count. -/
theorem main_abort_rows (env : Env) (prev : List (List JsonVal))
    (pre : List JsonVal) (pk : JsonVal) (post : List JsonVal)
    (hsplit : (repository_generator env 10).entries = pre ++ pk :: post)
    (hpre : ∀ p ∈ pre, (fill_repository env p).isSome)
    (hfail : fill_repository env pk = none) :
    (github_analysis.main env prev).1.length = pre.length + 1 ∧
    (github_analysis.main env prev).1.head? = some headerRow ∧
    List.Forall₂ (fun p row => ∃ r, fill_repository env p = some r ∧ row = writerow r)
      pre (github_analysis.main env prev).1.tail ∧
    (∀ row ∈ (github_analysis.main env prev).1, row.length = fieldnames.length) ∧
    (github_analysis.main env prev).2 = true := by
  obtain ⟨rows, hw, hlen, hfa, hrl⟩ := write_rows_stops env pk post hfail pre hpre
  have hm : github_analysis.main env prev = (headerRow :: rows, true) := by
    rw [github_analysis.main, hsplit, hw]
    simp
  rw [hm]
  refine ⟨by simp [hlen], rfl, hfa, ?_, rfl⟩
  intro row hrow
  rcases List.mem_cons.mp hrow with h | h
  · subst h; rfl
  · exact hrl row h

set_option maxRecDepth 100000 in
/-- C4 (witness).  Under `sampleEnv` the generator yields `sampleEntry` and
then an empty object whose enrichment fails (`k = 2`): the file holds the
header plus exactly one data row. -/
theorem main_abort_rows_witness :
    (github_analysis.main sampleEnv []).1.length = [sampleEntry].length + 1 ∧
    (github_analysis.main sampleEnv []).1.head? = some headerRow ∧
    List.Forall₂ (fun p row => ∃ r, fill_repository sampleEnv p = some r ∧ row = writerow r)
      [sampleEntry] (github_analysis.main sampleEnv []).1.tail ∧
    (∀ row ∈ (github_analysis.main sampleEnv []).1, row.length = fieldnames.length) ∧
    (github_analysis.main sampleEnv []).2 = true :=
  main_abort_rows sampleEnv [] [sampleEntry] (JsonVal.obj []) [] rfl
    (by intro p hp
        rw [List.mem_singleton.mp hp]
        rfl)
    rfl

/-- C10.  For every page budget `n ≤ 0` the paginator yields the empty
sequence: it issues no page requests (`requested = []`) and produces no
entries, because `range(1, n+1)` is empty. -/
theorem repository_generator_nonpos (env : Env) (n : Int) (hn : n ≤ 0) :
    repository_generator env n = GenResult.mk [] false [] := by
  have h : (n + 1 - 1).toNat = 0 := by omega
  rw [repository_generator, pyRange, h]
  rfl

/-- C10 (witness).  The paginator run with budget `-3` under the trivial
environment. -/
theorem repository_generator_nonpos_witness :
    repository_generator trivEnv (-3) = GenResult.mk [] false [] :=
  repository_generator_nonpos trivEnv (-3) (by decide)

/-- C5.  For every page budget `n ≥ 1` whose pages each respond with 100
items, the paginator requests exactly the pages `1..n`, in strictly
ascending order with no duplicate page in the run's page set, finishes
without raising, and yields exactly `n × 100` entries — the concatenation of
the pages' item lists in page order (entries within a page in page order). -/
theorem repository_generator_complete (env : Env) (n : Int) (hn : 1 ≤ n)
    (hpages : ∀ i : Int, 1 ≤ i → i ≤ n →
      ∃ its, pageItems (env.search i) = some its ∧ its.length = 100) :
    (repository_generator env n).requested = pyRange 1 (n + 1) ∧
    List.Pairwise (fun x y => x < y) (repository_generator env n).requested ∧
    (repository_generator env n).requested.Nodup ∧
    (repository_generator env n).aborted = false ∧
    (repository_generator env n).entries
      = (pyRange 1 (n + 1)).flatMap (fun i => (pageItems (env.search i)).getD []) ∧
    (repository_generator env n).entries.length = n.toNat * 100 := by
  have hmem : ∀ i ∈ pyRange 1 (n + 1), 1 ≤ i ∧ i ≤ n := by
    intro i hi
    have h := (mem_pyRange 1 (n + 1) i).mp hi
    omega
  have hok : ∀ i ∈ pyRange 1 (n + 1), (pageItems (env.search i)).isSome := by
    intro i hi
    obtain ⟨its, hits, _⟩ := hpages i (hmem i hi).1 (hmem i hi).2
    simp [hits]
  have hrun := run_pages_all_ok env (pyRange 1 (n + 1)) hok
  have hgen : repository_generator env n = GenResult.mk
      ((pyRange 1 (n + 1)).flatMap (fun i => (pageItems (env.search i)).getD []))
      false (pyRange 1 (n + 1)) := by
    rw [repository_generator, hrun]
  rw [hgen]
  have hpair : List.Pairwise (fun x y => x < y) (pyRange 1 (n + 1)) :=
    pyRangeAux_pairwise _ 1
  refine ⟨rfl, hpair, hpair.imp (fun hxy => ne_of_lt hxy), rfl, rfl, ?_⟩
  have hlen := flatMap_pageItems_length env (pyRange 1 (n + 1))
    (fun i hi => hpages i (hmem i hi).1 (hmem i hi).2)
  rw [hlen, pyRange, pyRangeAux_length]
  have h2 : (n + 1 - 1).toNat = n.toNat := by omega
  rw [h2]

set_option maxRecDepth 400000 in
/-- C5 (witness).  One page of 100 items: the paginator requests exactly page
1 and yields the 100 items. -/
theorem repository_generator_complete_witness :
    (repository_generator hundredEnv 1).requested = pyRange 1 (1 + 1) ∧
    List.Pairwise (fun x y => x < y) (repository_generator hundredEnv 1).requested ∧
    (repository_generator hundredEnv 1).requested.Nodup ∧
    (repository_generator hundredEnv 1).aborted = false ∧
    (repository_generator hundredEnv 1).entries
      = (pyRange 1 (1 + 1)).flatMap (fun i => (pageItems (hundredEnv.search i)).getD []) ∧
    (repository_generator hundredEnv 1).entries.length = (1 : Int).toNat * 100 :=
  repository_generator_complete hundredEnv 1 (by decide)
    (fun i h1 h2 => by
      have hi : i = 1 := le_antisymm h2 h1
      subst hi
      exact ⟨hundredItems, rfl, rfl⟩)
